import Mathlib

/-!
Verification development for the `theclaude` log-scanning and file-recovery
engine.  The scanner (`scanner.py`) parses JSON-lines conversation logs into
`FileRecord`s, resolves multiple versions per path, and the recovery engine
(`recovery.py`) writes resolved records back to disk.

The embedding models Python values appearing in parsed log lines as a `Json`
inductive, Python exceptions as an `Except` result (distinguishing exception
classes that the scanner's `except (json.JSONDecodeError, KeyError, TypeError)`
clause catches from those it does not, e.g. `AttributeError`), the filesystem
as an association list from paths (segment lists mirroring `pathlib` parts) to
contents, the external ISO-timestamp parser (`datetime.fromisoformat`) as a
function parameter, and the wall clock read by the `datetime.now()` fallback
as an explicit `now` parameter.
-/

/-- A parsed JSON value, as produced by `json.loads` for one log line. -/
inductive Json where
  | null
  | bool (b : Bool)
  | num (n : Int)
  | str (s : String)
  | arr (elems : List Json)
  | obj (fields : List (String × Json))

/-- Python exception classes relevant to the scanner: `caught` stands for the
classes listed in the scanner's `except` clause (`json.JSONDecodeError`,
`KeyError`, `TypeError`), `uncaught` for any other exception (notably
`AttributeError`). -/
inductive PyErr where
  | caught
  | uncaught

/-- A Python computation that may raise. -/
abbrev PyM (α : Type) := Except PyErr α

/-- Dictionary lookup on an object's field list. -/
def fieldLookup : List (String × Json) → String → Option Json
  | [], _ => none
  | (k, v) :: rest, key => if k = key then some v else fieldLookup rest key

/-- Does `pat` occur at the head of `hay`? -/
def leadMatch : List Char → List Char → Bool
  | [], _ => true
  | _ :: _, [] => false
  | a :: as, b :: bs => a == b && leadMatch as bs

/-- Substring occurrence test on character lists. -/
def containsSub (hay pat : List Char) : Bool :=
  if leadMatch pat hay then true
  else
    match hay with
    | [] => false
    | _ :: rest => containsSub rest pat

/-- Python's `pat in s` substring test for strings. -/
def strContains (s pat : String) : Bool := containsSub s.toList pat.toList

/-- Python's `key in x` membership test: key lookup for dicts, substring test
for strings, element equality for lists; `TypeError` otherwise. -/
def jsonHasKey : Json → String → PyM Bool
  | .obj fields, k => .ok ((fieldLookup fields k).isSome)
  | .str s, k => .ok (strContains s k)
  | .arr xs, k => .ok (xs.any fun j => match j with | .str t => t == k | _ => false)
  | _, _ => .error .caught

/-- Python's `x[key]` subscription: dict lookup raising `KeyError` when the key
is absent; `TypeError` on strings, lists and non-subscriptable values. -/
def jsonIdx : Json → String → PyM Json
  | .obj fields, k =>
      match fieldLookup fields k with
      | some v => .ok v
      | none => .error .caught
  | _, _ => .error .caught

/-- Python's `x == "s"` comparison of a JSON value against a string literal. -/
def jsonIsStr (j : Json) (s : String) : Bool :=
  match j with
  | .str t => t == s
  | _ => false

/-- `x == "s"` where `x` may be `None` (a missing `dict.get` result). -/
def optJsonIsStr (j? : Option Json) (s : String) : Bool :=
  match j? with
  | some j => jsonIsStr j s
  | none => false

/-- One observed file operation (`models.FileRecord`).  `version_count` models
the `_version_count` attribute that `scan_project_for_files` attaches to the
canonical record of a multi-version group (absent on freshly scanned records). -/
structure FileRecord where
  file_path : String
  content : String
  operation_type : String
  timestamp : Nat
  conversation_id : String
  project_name : String
  size_bytes : Nat
  version_count : Option Nat := none
deriving DecidableEq, Repr

/-- `s.replace("Z", "+00:00")` from `_parse_timestamp`, specialised to its
single-character pattern. -/
def replaceZ (s : String) : String :=
  String.mk (s.toList.foldr
    (fun c acc =>
      if c = 'Z' then '+' :: '0' :: '0' :: ':' :: '0' :: '0' :: acc else c :: acc)
    [])

/-- `LogScanner._parse_timestamp`: the external ISO parser is the `parseIso`
parameter; any failure (including a non-string argument, whose `.replace` call
raises `AttributeError` caught by the local `except`) falls back to the current
wall-clock instant `now`. -/
def parse_timestamp (parseIso : String → Option Nat) (now : Nat) : Json → Nat
  | .str s =>
      match parseIso (replaceZ s) with
      | some t => t
      | none => now
  | _ => now

/-- `LogScanner._extract_file_from_tool_use` applied to one `tool_use` content
block (already known to be a dict).  A non-string `content` value raises
`AttributeError` at `.encode` (uncaught); the `FileRecord` dataclass annotates
`file_path : str`, so a non-string path value is likewise modelled as an
uncaught type error. -/
def extract_file_from_tool_use (timestamp : Nat)
    (conversation_id project_name : String)
    (tool_use : List (String × Json)) : PyM (Option FileRecord) :=
  let tool_name := (fieldLookup tool_use "name").getD (.str "")
  let tool_input := (fieldLookup tool_use "input").getD (.obj [])
  if jsonIsStr tool_name "Write" then
    match jsonHasKey tool_input "file_path" with
    | .error e => .error e
    | .ok false => .ok none
    | .ok true =>
      match jsonHasKey tool_input "content" with
      | .error e => .error e
      | .ok false => .ok none
      | .ok true =>
        match jsonIdx tool_input "file_path" with
        | .error e => .error e
        | .ok fpj =>
          match jsonIdx tool_input "content" with
          | .error e => .error e
          | .ok cj =>
            match cj with
            | .str cs =>
              match fpj with
              | .str fps =>
                .ok (some { file_path := fps, content := cs,
                            operation_type := "Write", timestamp := timestamp,
                            conversation_id := conversation_id,
                            project_name := project_name,
                            size_bytes := cs.utf8ByteSize })
              | _ => .error .uncaught
            | _ => .error .uncaught
  else if jsonIsStr tool_name "Edit" then
    match jsonHasKey tool_input "file_path" with
    | .error e => .error e
    | .ok _ => .ok none
  else if jsonIsStr tool_name "MultiEdit" then
    match jsonHasKey tool_input "file_path" with
    | .error e => .error e
    | .ok _ => .ok none
  else .ok none

/-- One iteration of the `for content_item in message['content']` loop:
`content_item.get('type')` raises `AttributeError` on a non-dict item. -/
def scan_content_item (timestamp : Nat) (conversation_id project_name : String) :
    Json → PyM (Option FileRecord)
  | .obj fields =>
      if optJsonIsStr (fieldLookup fields "type") "tool_use" then
        extract_file_from_tool_use timestamp conversation_id project_name fields
      else .ok none
  | _ => .error .uncaught

/-- The whole content-block loop, collecting yielded records in order. -/
def scan_content_items (timestamp : Nat) (conversation_id project_name : String) :
    List Json → PyM (List FileRecord)
  | [] => .ok []
  | item :: rest =>
      match scan_content_item timestamp conversation_id project_name item with
      | .error e => .error e
      | .ok r? =>
          match scan_content_items timestamp conversation_id project_name rest with
          | .error e => .error e
          | .ok rs => .ok (match r? with | some r => r :: rs | none => rs)

/-- The assistant tool-use branch of `_scan_conversation_for_files` for one
parsed line already known to be a dict with field list `fields`. -/
def scan_assistant_branch (parseIso : String → Option Nat) (now : Nat)
    (conversation_id project_name : String)
    (fields : List (String × Json)) : PyM (List FileRecord) :=
  if optJsonIsStr (fieldLookup fields "type") "assistant"
      && (fieldLookup fields "message").isSome then
    let message := (fieldLookup fields "message").getD .null
    match jsonHasKey message "content" with
    | .error e => .error e
    | .ok false => .ok []
    | .ok true =>
        match jsonIdx message "content" with
        | .error e => .error e
        | .ok contentVal =>
            match contentVal with
            | .arr items =>
                scan_content_items
                  (parse_timestamp parseIso now
                    ((fieldLookup fields "timestamp").getD (.str "")))
                  conversation_id project_name items
            | _ => .ok []
  else .ok []

/-- The user tool-result branch of `_scan_conversation_for_files` for one
parsed line already known to be a dict with field list `fields`. -/
def scan_user_branch (parseIso : String → Option Nat) (now : Nat)
    (conversation_id project_name : String)
    (fields : List (String × Json)) : PyM (List FileRecord) :=
  if optJsonIsStr (fieldLookup fields "type") "user"
      && (fieldLookup fields "toolUseResult").isSome then
    match (fieldLookup fields "toolUseResult").getD .null with
    | .obj rfields =>
        if optJsonIsStr (fieldLookup rfields "type") "text" then
          let file_info := (fieldLookup rfields "file").getD (.obj [])
          match jsonHasKey file_info "filePath" with
          | .error e => .error e
          | .ok false => .ok []
          | .ok true =>
            match jsonHasKey file_info "content" with
            | .error e => .error e
            | .ok false => .ok []
            | .ok true =>
              match jsonIdx file_info "filePath" with
              | .error e => .error e
              | .ok fpj =>
                match jsonIdx file_info "content" with
                | .error e => .error e
                | .ok cj =>
                  match cj with
                  | .str cs =>
                    match fpj with
                    | .str fps =>
                      .ok [{ file_path := fps, content := cs,
                             operation_type := "Read",
                             timestamp := parse_timestamp parseIso now
                               ((fieldLookup fields "timestamp").getD (.str "")),
                             conversation_id := conversation_id,
                             project_name := project_name,
                             size_bytes := cs.utf8ByteSize }]
                    | _ => .error .uncaught
                  | _ => .error .uncaught
        else .ok []
    | _ => .ok []
  else .ok []

/-- Processing of one parsed line: `entry.get('type')` raises `AttributeError`
on a non-dict line; otherwise both recognised shapes are tried in order and
their yielded records concatenated. -/
def scan_line (parseIso : String → Option Nat) (now : Nat)
    (conversation_id project_name : String) : Json → PyM (List FileRecord)
  | .obj fields =>
      match scan_assistant_branch parseIso now conversation_id project_name fields with
      | .error e => .error e
      | .ok evs1 =>
          match scan_user_branch parseIso now conversation_id project_name fields with
          | .error e => .error e
          | .ok evs2 => .ok (evs1 ++ evs2)
  | _ => .error .uncaught

/-- `LogScanner._scan_conversation_for_files` consumed eagerly by `list(...)`:
each line is `none` when `json.loads` fails (caught, line skipped) or
`some j`; a caught exception skips the line, any other exception aborts the
whole file (the partially yielded records are discarded by the raising
`list(...)` call). -/
def scan_conversation (parseIso : String → Option Nat) (now : Nat)
    (conversation_id project_name : String) :
    List (Option Json) → Except Unit (List FileRecord)
  | [] => .ok []
  | line :: rest =>
      let step : Except Unit (List FileRecord) :=
        match line with
        | none => .ok []
        | some j =>
            match scan_line parseIso now conversation_id project_name j with
            | .ok evs => .ok evs
            | .error .caught => .ok []
            | .error .uncaught => .error ()
      match step with
      | .error _ => .error ()
      | .ok evs =>
          match scan_conversation parseIso now conversation_id project_name rest with
          | .error _ => .error ()
          | .ok more => .ok (evs ++ more)

/-- Stable insertion for a descending sort by timestamp: a record is placed
before the first already-sorted record whose timestamp is not larger, so
records with equal timestamps keep their encounter order — the unique result
of Python's stable `list.sort(key=..., reverse=True)`. -/
def insertByTsDesc (r : FileRecord) : List FileRecord → List FileRecord
  | [] => [r]
  | x :: xs => if r.timestamp < x.timestamp then x :: insertByTsDesc r xs else r :: x :: xs

/-- Stable descending sort by timestamp (`versions.sort(key=lambda f:
f.timestamp, reverse=True)` / `sorted(..., reverse=True)`). -/
def sortByTsDesc : List FileRecord → List FileRecord
  | [] => []
  | x :: xs => insertByTsDesc x (sortByTsDesc xs)

/-- Append one record to the group for its path, creating the group at the end
on first occurrence (the insertion-order behaviour of `defaultdict(list)`). -/
def addToGroups (r : FileRecord) :
    List (String × List FileRecord) → List (String × List FileRecord)
  | [] => [(r.file_path, [r])]
  | (p, rs) :: gs =>
      if p = r.file_path then (p, rs ++ [r]) :: gs else (p, rs) :: addToGroups r gs

/-- `file_versions` grouping of `scan_project_for_files`: groups keyed by exact
path, keys in first-occurrence order, members in scan order. -/
def groupByPath (l : List FileRecord) : List (String × List FileRecord) :=
  l.foldl (fun gs r => addToGroups r gs) []

/-- Per-group resolution: sort descending by timestamp, keep the head, and
attach the version count when the group has more than one member. -/
def resolveGroup (versions : List FileRecord) : Option FileRecord :=
  match sortByTsDesc versions with
  | [] => none
  | latest :: _ =>
      some (if versions.length > 1
            then { latest with version_count := some versions.length }
            else latest)

/-- The version-resolution phase of `scan_project_for_files` (source lines
92–110): group by path, keep the latest per group, sort the canonical records
by timestamp descending. -/
def resolve_versions (all_files : List FileRecord) : List FileRecord :=
  sortByTsDesc ((groupByPath all_files).filterMap fun g => resolveGroup g.2)

/-- The accumulation loop of `scan_project_for_files`: each conversation is a
(stem, parsed lines) pair; a file whose scan raises is dropped with a
warning, the rest are concatenated in order. -/
def scan_all_conversations (parseIso : String → Option Nat) (now : Nat)
    (project_name : String)
    (conversations : List (String × List (Option Json))) : List FileRecord :=
  conversations.foldl
    (fun acc conv =>
      match scan_conversation parseIso now conv.1 project_name conv.2 with
      | .ok evs => acc ++ evs
      | .error _ => acc)
    []

/-- `LogScanner.scan_project_for_files`: scan every conversation log of the
project, then resolve versions. -/
def scan_project_for_files (parseIso : String → Option Nat) (now : Nat)
    (project_name : String)
    (conversations : List (String × List (Option Json))) : List FileRecord :=
  resolve_versions (scan_all_conversations parseIso now project_name conversations)

/-- Split a string at a separator character (Python `str.split` semantics,
keeping empty fields). -/
def splitOnChar (c : Char) (s : String) : List String :=
  let step := fun (acc : List String × String) ch =>
    if ch = c then (acc.1 ++ [acc.2], "") else (acc.1, acc.2.push ch)
  let r := s.toList.foldl step ([], "")
  r.1 ++ [r.2]

/-- `pathlib.Path(s).parts`: an absolute path contributes a leading `"/"`
part; empty and `"."` segments are dropped. -/
def pathParts (s : String) : List String :=
  let segs := (splitOnChar '/' s).filter fun seg => seg != "" && seg != "."
  match s.toList with
  | '/' :: _ => "/" :: segs
  | _ => segs

/-- `pathlib.Path(...).name` of a path given by its parts (the root part
`"/"` and the empty path have no name). -/
def pathName (parts : List String) : String :=
  match parts.getLast? with
  | some p => if p = "/" then "" else p
  | none => ""

/-- `pathlib`'s `/` join: an absolute right operand replaces the left one. -/
def joinPaths (base rel : List String) : List String :=
  if rel.head? = some "/" then rel else base ++ rel

/-- `target_dir / Path(file_path).name` as a segment list (empty names are
ignored by the `Path` constructor). -/
def bareNameSegs (file_path : String) : List String :=
  let n := pathName (pathParts file_path)
  if n = "" then [] else [n]

/-- The recovery-specific root-marker set of `FileRecovery._make_relative_path`. -/
def recovery_project_indicators : List String :=
  ["src", "lib", "app", ".claude", "tests", "docs"]

/-- The `for i, part in enumerate(parts)` search: index of the first marker
segment at position `> 0`, starting the count at `k`. -/
def findIndicatorFrom : Nat → List String → Option Nat
  | _, [] => none
  | i, p :: rest =>
      if 0 < i ∧ p ∈ recovery_project_indicators then some i
      else findIndicatorFrom (i + 1) rest

/-- `FileRecovery._make_relative_path`: keep the parts from one segment before
the first marker found at index `> 0`; otherwise just the bare filename. -/
def make_relative_path (file_path : String) : List String :=
  let parts := pathParts file_path
  match findIndicatorFrom 0 parts with
  | some i => parts.drop (i - 1)
  | none => bareNameSegs file_path

/-- Target-path resolution of `recover_files` (source lines 114–123): `none`
means "no custom target" and lets `recover_file` fall back to the record's
original path. -/
def resolve_target (file_path : String) (target_dir : Option (List String))
    (preserve_structure : Bool) : Option (List String) :=
  match target_dir with
  | some td =>
      some (if preserve_structure then joinPaths td (make_relative_path file_path)
            else joinPaths td (bareNameSegs file_path))
  | none => none

/-- `RecoveryResult` from `models.py`. -/
structure RecoveryResult where
  file_record : FileRecord
  success : Bool
  target_path : List String
  error_message : Option String := none
  was_existing : Bool := false
  backup_created : Bool := false
deriving DecidableEq, Repr

/-- Association-list update used by the filesystem model. -/
def setFileAssoc : List (List String × String) → List String → String →
    List (List String × String)
  | [], k, v => [(k, v)]
  | (k0, v0) :: rest, k, v =>
      if k0 = k then (k, v) :: rest else (k0, v0) :: setFileAssoc rest k v

/-- Association-list lookup used by the filesystem model. -/
def lookupFileAssoc : List (List String × String) → List String → Option String
  | [], _ => none
  | (k0, v0) :: rest, k => if k0 = k then some v0 else lookupFileAssoc rest k

/-- The filesystem state: file contents by path, plus the set of directories
(so that directory creation is an observable effect). -/
structure FS where
  files : List (List String × String)
  dirs : List (List String)
deriving DecidableEq, Repr

/-- Content of the file at `p`, if any. -/
def FS.lookupFile (fs : FS) (p : List String) : Option String :=
  lookupFileAssoc fs.files p

/-- `Path.exists()` for a file path. -/
def FS.fileExists (fs : FS) (p : List String) : Bool :=
  (fs.lookupFile p).isSome

/-- `open(p, 'w').write(c)`: create or fully replace the file at `p`. -/
def FS.writeFile (fs : FS) (p : List String) (c : String) : FS :=
  { fs with files := setFileAssoc fs.files p c }

/-- All non-empty prefixes of a directory path. -/
def pathAncestors (p : List String) : List (List String) :=
  (List.range p.length).map fun i => p.take (i + 1)

/-- `target.parent.mkdir(parents=True, exist_ok=True)`. -/
def FS.mkdirParents (fs : FS) (target : List String) : FS :=
  { fs with
    dirs := fs.dirs ++ (pathAncestors target.dropLast).filter fun d =>
      !(fs.dirs.contains d) }

/-- `target_path.with_suffix(target_path.suffix + '.backup')`, which for every
named path equals appending `".backup"` to the final segment. -/
def backupPath : List String → List String
  | [] => []
  | [s] => [s ++ ".backup"]
  | s :: rest => s :: backupPath rest

/-- `FileRecovery.recover_file`.  `create_backups` is the constructor flag,
`confirm` the answer the interactive `Confirm.ask` collaborator would give,
and `failPaths` the set of paths at which a write (the backup copy or the
content write) raises an I/O error, caught by the `try`/`except` and turned
into a failed result. -/
def recover_file (create_backups confirm : Bool) (failPaths : List (List String))
    (r : FileRecord) (target? : Option (List String)) (force : Bool) (fs : FS) :
    RecoveryResult × FS :=
  let target := match target? with
    | some t => t
    | none => pathParts r.file_path
  let was_existing := fs.fileExists target
  if was_existing && !force && !confirm then
    ({ file_record := r, success := false, target_path := target,
       error_message := some "User cancelled overwrite",
       was_existing := true, backup_created := false }, fs)
  else
    let fs1 := fs.mkdirParents target
    if was_existing && create_backups then
      if backupPath target ∈ failPaths then
        ({ file_record := r, success := false, target_path := target,
           error_message := some "io error", was_existing := was_existing,
           backup_created := false }, fs1)
      else
        let fs2 := fs1.writeFile (backupPath target) ((fs1.lookupFile target).getD "")
        if target ∈ failPaths then
          ({ file_record := r, success := false, target_path := target,
             error_message := some "io error", was_existing := was_existing,
             backup_created := true }, fs2)
        else
          ({ file_record := r, success := true, target_path := target,
             error_message := none, was_existing := was_existing,
             backup_created := true }, fs2.writeFile target r.content)
    else
      if target ∈ failPaths then
        ({ file_record := r, success := false, target_path := target,
           error_message := some "io error", was_existing := was_existing,
           backup_created := false }, fs1)
      else
        ({ file_record := r, success := true, target_path := target,
           error_message := none, was_existing := was_existing,
           backup_created := false }, fs1.writeFile target r.content)

/-- `FileRecovery.recover_files`: resolve the target per record and recover
each in order, threading the filesystem state. -/
def recover_files (create_backups confirm : Bool) (failPaths : List (List String)) :
    List FileRecord → Option (List String) → Bool → Bool → FS →
    List RecoveryResult × FS
  | [], _, _, _, fs => ([], fs)
  | r :: rest, target_dir, preserve_structure, force, fs =>
      let step := recover_file create_backups confirm failPaths r
        (resolve_target r.file_path target_dir preserve_structure) force fs
      let restRes := recover_files create_backups confirm failPaths rest
        target_dir preserve_structure force step.2
      (step.1 :: restRes.1, restRes.2)

/-- One line of the preview report. -/
structure PreviewEntry where
  target_path : List String
  would_overwrite : Bool
  size_bytes : Nat
deriving DecidableEq, Repr

/-- `FileRecovery.preview_recovery`: the same target resolution and existence
checks as recovery, producing per-file lines plus the total count and total
size, and returning the filesystem as it received it (the function only reads
`target_path.exists()`). -/
def preview_recovery (records : List FileRecord) (target_dir : Option (List String))
    (preserve_structure : Bool) (fs : FS) :
    (List PreviewEntry × Nat × Nat) × FS :=
  ((records.map fun r =>
      let target := match target_dir with
        | some td =>
            if preserve_structure then joinPaths td (make_relative_path r.file_path)
            else joinPaths td (bareNameSegs r.file_path)
        | none => pathParts r.file_path
      { target_path := target, would_overwrite := fs.fileExists target,
        size_bytes := r.size_bytes },
    records.length,
    (records.map fun r => r.size_bytes).sum),
   fs)

/-- First element of the list attaining the maximum timestamp (earlier
elements win ties): the canonical record a stable descending sort puts first. -/
def firstMaxTs : List FileRecord → Option FileRecord
  | [] => none
  | x :: xs =>
      match firstMaxTs xs with
      | none => some x
      | some m => if x.timestamp < m.timestamp then some m else some x

/-- Does the timestamp value parse without the `datetime.now()` fallback? -/
def timestampParses (parseIso : String → Option Nat) : Json → Bool
  | .str s => (parseIso (replaceZ s)).isSome
  | _ => false

/-- A parsed line whose `timestamp` field (defaulted to `""`) parses, so that
scanning it never reads the wall clock; non-dict lines never reach the
timestamp parser. -/
def lineTimestampOk (parseIso : String → Option Nat) : Json → Bool
  | .obj fields => timestampParses parseIso ((fieldLookup fields "timestamp").getD (.str ""))
  | _ => true

/-- `lineTimestampOk` lifted to a raw line (`none` = unparseable JSON, which
never reaches the timestamp parser either). -/
def optLineTimestampOk (parseIso : String → Option Nat) : Option Json → Bool
  | some j => lineTimestampOk parseIso j
  | none => true

/-- A concrete stand-in for the external ISO-timestamp parser in closed
instances: accepts non-empty all-digit strings. -/
def parseNatTs (s : String) : Option Nat :=
  match s.toList with
  | [] => none
  | cs => cs.foldl
      (fun acc c => acc.bind fun n =>
        if c.isDigit then some (n * 10 + (c.toNat - 48)) else none)
      (some 0)

/-- End-to-end scenario, first log line: an assistant `Write` of
`print('hi')` to `/a/b/src/x.py` at time 100. -/
def c1WriteLine : Option Json :=
  some (.obj [
    ("type", .str "assistant"),
    ("message", .obj [("content", .arr [.obj [
        ("type", .str "tool_use"), ("name", .str "Write"),
        ("input", .obj [("file_path", .str "/a/b/src/x.py"),
                        ("content", .str "print(\x27hi\x27)")])]])]),
    ("timestamp", .str "100")])

/-- End-to-end scenario, second log line: a `Read` of the same path with
different content at time 101. -/
def c1ReadLine : Option Json :=
  some (.obj [
    ("type", .str "user"),
    ("toolUseResult", .obj [("type", .str "text"),
      ("file", .obj [("filePath", .str "/a/b/src/x.py"),
                     ("content", .str "print(\x27bye\x27)")])]),
    ("timestamp", .str "101")])

/-- The end-to-end scenario's project: one conversation log with the Write
line followed by the Read line. -/
def c1Logs : List (String × List (Option Json)) := [("c", [c1WriteLine, c1ReadLine])]

/-- Resolved file set of the end-to-end scenario. -/
def c1Resolved : List FileRecord := scan_project_for_files parseNatTs 0 "p" c1Logs

/-- Recovery of the end-to-end scenario: backups enabled, target directory
`/out`, `preserveStructure = true`, `force = false`, empty filesystem, no
injected I/O failures. -/
def c1Recovery : List RecoveryResult × FS :=
  recover_files true false [] c1Resolved (some ["/", "out"]) true false ⟨[], []⟩

/-- A line whose JSON parses to a non-object value: `entry.get('type')` raises
`AttributeError`, which the scanner's `except` clause does not list. -/
def c2BadLine : Option Json := some (.num 5)

/-- A well-formed assistant `Write` line. -/
def c2WriteLine : Option Json :=
  some (.obj [
    ("type", .str "assistant"),
    ("message", .obj [("content", .arr [.obj [
        ("type", .str "tool_use"), ("name", .str "Write"),
        ("input", .obj [("file_path", .str "/a/src/x.py"),
                        ("content", .str "hi")])]])]),
    ("timestamp", .str "100")])

/-- The record the well-formed `Write` line yields when scanned alone. -/
def c2WriteRecord : FileRecord :=
  { file_path := "/a/src/x.py", content := "hi", operation_type := "Write",
    timestamp := 100, conversation_id := "c", project_name := "p",
    size_bytes := 2 }

/-- A well-formed assistant `Write` line with no `timestamp` field: parsing
the defaulted `""` fails, so the scanner falls back to the wall clock. -/
def c4Line : Option Json :=
  some (.obj [
    ("type", .str "assistant"),
    ("message", .obj [("content", .arr [.obj [
        ("type", .str "tool_use"), ("name", .str "Write"),
        ("input", .obj [("file_path", .str "/a/src/x.py"),
                        ("content", .str "hi")])]])])])

/-- A one-log project whose only event-bearing line has no parseable
timestamp. -/
def c4Logs : List (String × List (Option Json)) := [("c", [c4Line])]

/-- A one-log project whose only line carries the parseable timestamp `5`. -/
def c4GoodLogs : List (String × List (Option Json)) :=
  [("c", [some (.obj [
    ("type", .str "assistant"),
    ("message", .obj [("content", .arr [.obj [
        ("type", .str "tool_use"), ("name", .str "Write"),
        ("input", .obj [("file_path", .str "/a/src/x.py"),
                        ("content", .str "hi")])]])]),
    ("timestamp", .str "5")])])]

/-- Witness record: an older version of `/a/x`. -/
def wRecOld : FileRecord :=
  { file_path := "/a/x", content := "old", operation_type := "Write",
    timestamp := 1, conversation_id := "c", project_name := "p", size_bytes := 3 }

/-- Witness record: the newest version of `/a/x`. -/
def wRecNew : FileRecord :=
  { file_path := "/a/x", content := "new", operation_type := "Read",
    timestamp := 2, conversation_id := "c", project_name := "p", size_bytes := 3 }

/-- Witness record: a second version of `/a/x` tying the maximum timestamp. -/
def wRecTie : FileRecord :=
  { file_path := "/a/x", content := "tie", operation_type := "Write",
    timestamp := 2, conversation_id := "c", project_name := "p", size_bytes := 3 }

/-- Witness filesystem: one existing file at `/t/f.txt`. -/
def wFS : FS := ⟨[(["/", "t", "f.txt"], "old")], []⟩

/-- Witness record targeting the existing file of `wFS`. -/
def wRecTgt : FileRecord :=
  { file_path := "/t/f.txt", content := "incoming", operation_type := "Write",
    timestamp := 7, conversation_id := "c", project_name := "p", size_bytes := 8 }

/-! ## Supporting lemmas -/

/-- The head of the stable descending sort is the first element attaining the
maximum timestamp. -/
theorem sort_head_eq_firstMaxTs : ∀ l : List FileRecord,
    (sortByTsDesc l).head? = firstMaxTs l := by
  intro l
  induction l with
  | nil => rfl
  | cons x xs ih =>
      show (insertByTsDesc x (sortByTsDesc xs)).head? = firstMaxTs (x :: xs)
      simp only [firstMaxTs, ← ih]
      cases hs : sortByTsDesc xs with
      | nil => rfl
      | cons y ys =>
          by_cases h : x.timestamp < y.timestamp
          · simp [insertByTsDesc, h]
          · simp [insertByTsDesc, h]

/-- A non-empty list has a first maximum. -/
theorem firstMaxTs_isSome : ∀ l : List FileRecord, l ≠ [] →
    ∃ e, firstMaxTs l = some e := by
  intro l h
  cases l with
  | nil => exact absurd rfl h
  | cons x xs =>
      simp only [firstMaxTs]
      cases firstMaxTs xs with
      | none => exact ⟨x, rfl⟩
      | some m =>
          by_cases h2 : x.timestamp < m.timestamp
          · exact ⟨m, by simp [h2]⟩
          · exact ⟨x, by simp [h2]⟩

/-- The first maximum is a member of the list. -/
theorem firstMaxTs_mem : ∀ (l : List FileRecord) (e : FileRecord),
    firstMaxTs l = some e → e ∈ l := by
  intro l
  induction l with
  | nil => intro e h; cases h
  | cons x xs ih =>
      intro e h
      cases hm : firstMaxTs xs with
      | none =>
          simp only [firstMaxTs, hm] at h
          injection h with h
          subst h
          exact List.mem_cons_self x xs
      | some m =>
          simp only [firstMaxTs, hm] at h
          by_cases h2 : x.timestamp < m.timestamp
          · rw [if_pos h2] at h
            injection h with h
            subst h
            exact List.mem_cons_of_mem x (ih m hm)
          · rw [if_neg h2] at h
            injection h with h
            subst h
            exact List.mem_cons_self x xs

/-- The first maximum dominates every timestamp in the list. -/
theorem firstMaxTs_ge : ∀ (l : List FileRecord) (e : FileRecord),
    firstMaxTs l = some e → ∀ r ∈ l, r.timestamp ≤ e.timestamp := by
  intro l
  induction l with
  | nil => intro e h; cases h
  | cons x xs ih =>
      intro e h r hr
      cases hm : firstMaxTs xs with
      | none =>
          simp only [firstMaxTs, hm] at h
          injection h with h
          subst h
          have hxs : xs = [] := by
            cases hx : xs with
            | nil => rfl
            | cons y ys =>
                rw [hx] at hm
                obtain ⟨m, hmm⟩ := firstMaxTs_isSome (y :: ys) (by simp)
                rw [hmm] at hm
                cases hm
          rw [hxs] at hr
          rcases List.mem_singleton.mp hr with rfl
          exact Nat.le_refl _
      | some m =>
          simp only [firstMaxTs, hm] at h
          by_cases h2 : x.timestamp < m.timestamp
          · rw [if_pos h2] at h
            injection h with h
            subst h
            rcases List.mem_cons.mp hr with rfl | hr2
            · exact Nat.le_of_lt h2
            · exact ih m hm r hr2
          · rw [if_neg h2] at h
            injection h with h
            subst h
            rcases List.mem_cons.mp hr with rfl | hr2
            · exact Nat.le_refl _
            · exact Nat.le_trans (ih m hm r hr2) (Nat.le_of_not_lt h2)

/-- The list splits at its first maximum, with strictly smaller timestamps
before it. -/
theorem firstMaxTs_decomp : ∀ (l : List FileRecord) (e : FileRecord),
    firstMaxTs l = some e →
    ∃ l₁ l₂, l = l₁ ++ e :: l₂ ∧ ∀ r ∈ l₁, r.timestamp < e.timestamp := by
  intro l
  induction l with
  | nil => intro e h; cases h
  | cons x xs ih =>
      intro e h
      cases hm : firstMaxTs xs with
      | none =>
          simp only [firstMaxTs, hm] at h
          injection h with h
          subst h
          exact ⟨[], xs, rfl, by intro r hr; cases hr⟩
      | some m =>
          simp only [firstMaxTs, hm] at h
          by_cases h2 : x.timestamp < m.timestamp
          · rw [if_pos h2] at h
            injection h with h
            subst h
            obtain ⟨l₁, l₂, hdec, hlt⟩ := ih m hm
            refine ⟨x :: l₁, l₂, by rw [hdec]; rfl, ?_⟩
            intro r hr
            rcases List.mem_cons.mp hr with rfl | hr2
            · exact h2
            · exact hlt r hr2
          · rw [if_neg h2] at h
            injection h with h
            subst h
            exact ⟨[], xs, rfl, by intro r hr; cases hr⟩

/-- Accumulating records that all share one path extends that path's single
group in order. -/
theorem foldl_addToGroups_const (p : String) :
    ∀ (l : List FileRecord) (acc : List FileRecord), (∀ r ∈ l, r.file_path = p) →
      List.foldl (fun gs r => addToGroups r gs) [(p, acc)] l = [(p, acc ++ l)] := by
  intro l
  induction l with
  | nil => intro acc _; simp
  | cons x xs ih =>
      intro acc h
      have hx : x.file_path = p := h x (List.mem_cons_self x xs)
      have hstep : addToGroups x [(p, acc)] = [(p, acc ++ [x])] := by
        simp [addToGroups, hx]
      simp only [List.foldl, hstep]
      rw [ih (acc ++ [x]) fun r hr => h r (List.mem_cons_of_mem x hr)]
      simp

/-- Grouping a non-empty single-path list yields one group holding the whole
list in scan order. -/
theorem groupByPath_const (p : String) (l : List FileRecord) (hne : l ≠ [])
    (h : ∀ r ∈ l, r.file_path = p) : groupByPath l = [(p, l)] := by
  cases l with
  | nil => exact absurd rfl hne
  | cons x xs =>
      have hx : x.file_path = p := h x (List.mem_cons_self x xs)
      have hstep : addToGroups x ([] : List (String × List FileRecord)) = [(p, [x])] := by
        simp [addToGroups, hx]
      show List.foldl (fun gs r => addToGroups r gs) [] (x :: xs) = [(p, x :: xs)]
      simp only [List.foldl, hstep]
      rw [foldl_addToGroups_const p xs [x] fun r hr => h r (List.mem_cons_of_mem x hr)]
      simp

/-- Resolving a group keeps its first maximum, annotated with the version
count when the group has several members. -/
theorem resolveGroup_firstMax (l : List FileRecord) (e : FileRecord)
    (h : firstMaxTs l = some e) :
    resolveGroup l =
      some (if l.length > 1 then { e with version_count := some l.length } else e) := by
  have hh := sort_head_eq_firstMaxTs l
  rw [h] at hh
  cases hs : sortByTsDesc l with
  | nil => rw [hs] at hh; cases hh
  | cons a tl =>
      rw [hs] at hh
      simp only [List.head?] at hh
      injection hh with hh
      simp only [resolveGroup, hs, hh]

/-- Full resolution of a non-empty single-path list: exactly the annotated
first maximum. -/
theorem resolve_versions_single (p : String) (l : List FileRecord) (e : FileRecord)
    (hne : l ≠ []) (hp : ∀ r ∈ l, r.file_path = p) (hfm : firstMaxTs l = some e) :
    resolve_versions l =
      [if l.length > 1 then { e with version_count := some l.length } else e] := by
  unfold resolve_versions
  rw [groupByPath_const p l hne hp]
  simp only [List.filterMap]
  rw [resolveGroup_firstMax l e hfm]
  simp [sortByTsDesc, insertByTsDesc]

/-! ## Claim C3: versioning keeps the maximum-timestamp event -/

/-- C3: for every non-empty set of events sharing one path and having pairwise
distinct timestamps, resolution yields exactly one canonical event — one whose
timestamp is the maximum of the group — and, when the group has more than one
member, annotates it with a version count equal to the group size. -/
theorem resolve_versions_max_timestamp (l : List FileRecord) (p : String)
    (hne : l ≠ []) (hp : ∀ r ∈ l, r.file_path = p)
    (hdist : l.Pairwise fun a b => a.timestamp ≠ b.timestamp) :
    ∃ e ∈ l, (∀ r ∈ l, r.timestamp ≤ e.timestamp) ∧
      resolve_versions l =
        [if l.length > 1 then { e with version_count := some l.length } else e] := by
  obtain ⟨e, he⟩ := firstMaxTs_isSome l hne
  exact ⟨e, firstMaxTs_mem l e he, firstMaxTs_ge l e he,
    resolve_versions_single p l e hne hp he⟩

/-- Witness for C3 at the concrete two-version group `[wRecNew, wRecOld]`. -/
theorem resolve_versions_max_timestamp_witness :
    ∃ e ∈ [wRecNew, wRecOld], (∀ r ∈ [wRecNew, wRecOld], r.timestamp ≤ e.timestamp) ∧
      resolve_versions [wRecNew, wRecOld] =
        [if ([wRecNew, wRecOld] : List FileRecord).length > 1
         then { e with version_count := some ([wRecNew, wRecOld] : List FileRecord).length }
         else e] :=
  resolve_versions_max_timestamp [wRecNew, wRecOld] "/a/x"
    (by decide) (by decide) (by decide)

/-! ## Claim C10: deterministic tie-break at equal maximum timestamps -/

/-- C10: the canonical event chosen for a path group is the first-encountered
event attaining the group's maximum timestamp (the descending sort is stable),
so the tie-break among equal maximal timestamps is deterministic in scan
order. -/
theorem resolve_versions_tie_break_first (l : List FileRecord) (p : String)
    (hne : l ≠ []) (hp : ∀ r ∈ l, r.file_path = p) :
    ∃ e l₁ l₂, l = l₁ ++ e :: l₂ ∧
      (∀ r ∈ l₁, r.timestamp < e.timestamp) ∧
      (∀ r ∈ l, r.timestamp ≤ e.timestamp) ∧
      resolve_versions l =
        [if l.length > 1 then { e with version_count := some l.length } else e] := by
  obtain ⟨e, he⟩ := firstMaxTs_isSome l hne
  obtain ⟨l₁, l₂, hdec, hlt⟩ := firstMaxTs_decomp l e he
  exact ⟨e, l₁, l₂, hdec, hlt, firstMaxTs_ge l e he,
    resolve_versions_single p l e hne hp he⟩

/-- Witness for C10 at a group whose maximum timestamp is attained twice. -/
theorem resolve_versions_tie_break_first_witness :
    ∃ e l₁ l₂, ([wRecNew, wRecTie, wRecOld] : List FileRecord) = l₁ ++ e :: l₂ ∧
      (∀ r ∈ l₁, r.timestamp < e.timestamp) ∧
      (∀ r ∈ [wRecNew, wRecTie, wRecOld], r.timestamp ≤ e.timestamp) ∧
      resolve_versions [wRecNew, wRecTie, wRecOld] =
        [if ([wRecNew, wRecTie, wRecOld] : List FileRecord).length > 1
         then { e with
                version_count := some ([wRecNew, wRecTie, wRecOld] : List FileRecord).length }
         else e] :=
  resolve_versions_tie_break_first [wRecNew, wRecTie, wRecOld] "/a/x"
    (by decide) (by decide)

/-! ## Claim C2: malformed lines and per-line tolerance -/

/-- C2 (code bug): a line whose JSON parses to a non-object (here the number
`5`) raises `AttributeError` at `entry.get`, which the scanner's `except`
clause does not catch, aborting the whole file's scan: scanned alone, the
well-formed `Write` line yields its record, but behind the malformed line the
file errors and `scan_project_for_files` drops all of its events. -/
theorem malformed_line_aborts_file_scan :
    scan_conversation parseNatTs 0 "c" "p" [c2BadLine, c2WriteLine] = .error () ∧
    scan_conversation parseNatTs 0 "c" "p" [c2WriteLine] = .ok [c2WriteRecord] ∧
    scan_project_for_files parseNatTs 0 "p" [("c", [c2BadLine, c2WriteLine])] = [] ∧
    scan_project_for_files parseNatTs 0 "p" [("c", [c2WriteLine])] = [c2WriteRecord] := by
  refine ⟨rfl, rfl, rfl, rfl⟩

/-! ## Claim C1: end-to-end scenario -/

/-- C1 (counterexample): in the end-to-end scenario, recovery with
`preserveStructure = true` to `/out` produces no file at `/out/src/x.py`
(and no outcome targets that path): `_make_relative_path` keeps the path from
one segment before the `src` marker, so the actual target is
`/out/b/src/x.py`. -/
theorem end_to_end_target_counterexample :
    c1Recovery.2.lookupFile ["/", "out", "src", "x.py"] = none ∧
    ∀ res ∈ c1Recovery.1, res.target_path ≠ ["/", "out", "src", "x.py"] := by
  refine ⟨rfl, by decide⟩

/-- C1 (amended): the scenario's log resolves to a single canonical event with
the Read's content, operation `Read` and version count 2, and recovering it
with `preserveStructure = true` into `/out` with no pre-existing file succeeds
with `backupCreated = false` — at target path `/out/b/src/x.py` (one segment
before the `src` marker), where the Read's content is written. -/
theorem end_to_end_recovery_amended :
    c1Resolved = [{ file_path := "/a/b/src/x.py", content := "print(\x27bye\x27)",
                    operation_type := "Read", timestamp := 101,
                    conversation_id := "c", project_name := "p",
                    size_bytes := 12, version_count := some 2 }] ∧
    (c1Recovery.1.map fun res =>
      (res.target_path, res.success, res.backup_created, res.was_existing)) =
      [(["/", "out", "b", "src", "x.py"], true, false, false)] ∧
    c1Recovery.2.lookupFile ["/", "out", "b", "src", "x.py"] = some "print(\x27bye\x27)" := by
  refine ⟨rfl, rfl, rfl⟩

/-! ## Claim C5: recovery target-path resolution -/

/-- `findIndicatorFrom` finds the first marker index: completeness of the
`some` answer under a first-marker characterisation, counting from `k`. -/
theorem findIndicatorFrom_eq_some : ∀ (parts : List String) (k i : Nat)
    (h1 : i < parts.length),
    0 < k + i →
    parts.get ⟨i, h1⟩ ∈ recovery_project_indicators →
    (∀ (j : Nat) (hj : j < parts.length), j < i → 0 < k + j →
        parts.get ⟨j, hj⟩ ∉ recovery_project_indicators) →
    findIndicatorFrom k parts = some (k + i) := by
  intro parts
  induction parts with
  | nil => intro k i h1; exact absurd h1 (Nat.not_lt_zero i)
  | cons p rest ih =>
      intro k i h1 hpos hmem hfirst
      cases i with
      | zero =>
          simp only [List.get] at hmem
          simp only [findIndicatorFrom]
          rw [if_pos ⟨by omega, hmem⟩]
          simp
      | succ j =>
          simp only [List.get] at hmem
          have hneg : ¬(0 < k ∧ p ∈ recovery_project_indicators) := by
            rintro ⟨hk, hp⟩
            exact hfirst 0 (by simp) (Nat.succ_pos j) (by omega) hp
          simp only [findIndicatorFrom]
          rw [if_neg hneg]
          have hrec := ih (k + 1) j (by simpa using h1) (by omega) hmem
            (fun j2 hj2 hlt hpos2 => by
              have := hfirst (j2 + 1) (by simpa using hj2) (by omega) (by omega)
              simpa using this)
          rw [hrec]
          congr 1
          omega

/-- `findIndicatorFrom` returns `none` when no segment at a positive count is
a marker. -/
theorem findIndicatorFrom_eq_none : ∀ (parts : List String) (k : Nat),
    (∀ (j : Nat) (hj : j < parts.length), 0 < k + j →
        parts.get ⟨j, hj⟩ ∉ recovery_project_indicators) →
    findIndicatorFrom k parts = none := by
  intro parts
  induction parts with
  | nil => intro k _; rfl
  | cons p rest ih =>
      intro k hnone
      have hneg : ¬(0 < k ∧ p ∈ recovery_project_indicators) := by
        rintro ⟨hk, hp⟩
        exact hnone 0 (by simp) (by omega) hp
      simp only [findIndicatorFrom]
      rw [if_neg hneg]
      exact ih (k + 1) fun j hj hpos => by
        have := hnone (j + 1) (by simpa using hj) (by omega)
        simpa using this

/-- C5: with a target directory and `preserveStructure = true`, when the
event path has a first marker segment (from the recovery marker set `src`,
`lib`, `app`, `.claude`, `tests`, `docs`) at segment index `i > 0`, the target
is the target directory joined with the path's segments from index `i - 1`
onward; when no segment at index `> 0` is a marker, the target is the target
directory joined with the bare filename. -/
theorem preserve_structure_target_resolution (td : List String) (fp : String) :
    (∀ i : Fin (pathParts fp).length, 0 < i.val →
       (pathParts fp).get i ∈ recovery_project_indicators →
       (∀ j : Fin (pathParts fp).length, 0 < j.val → j.val < i.val →
          (pathParts fp).get j ∉ recovery_project_indicators) →
       resolve_target fp (some td) true =
         some (joinPaths td ((pathParts fp).drop (i.val - 1)))) ∧
    ((∀ j : Fin (pathParts fp).length, 0 < j.val →
        (pathParts fp).get j ∉ recovery_project_indicators) →
       resolve_target fp (some td) true = some (joinPaths td (bareNameSegs fp))) := by
  constructor
  · intro i hpos hmem hfirst
    have hfind : findIndicatorFrom 0 (pathParts fp) = some (0 + i.val) :=
      findIndicatorFrom_eq_some (pathParts fp) 0 i.val i.isLt (by omega) hmem
        (fun j hj hlt hpos2 => hfirst ⟨j, hj⟩ (by show 0 < j; omega) hlt)
    simp only [resolve_target, make_relative_path]
    rw [show findIndicatorFrom 0 (pathParts fp) = some i.val from by simpa using hfind]
    simp
  · intro hnone
    have hfind : findIndicatorFrom 0 (pathParts fp) = none :=
      findIndicatorFrom_eq_none (pathParts fp) 0 fun j hj hpos =>
        hnone ⟨j, hj⟩ (by show 0 < j; omega)
    simp only [resolve_target, make_relative_path]
    rw [hfind]
    simp

/-- Witness for C5: `/a/b/src/x.py` has its first marker `src` at index 3, so
the preserved-structure target keeps segments from index 2 (`b/src/x.py`). -/
theorem preserve_structure_target_resolution_witness :
    resolve_target "/a/b/src/x.py" (some ["/", "out"]) true =
      some (joinPaths ["/", "out"] ((pathParts "/a/b/src/x.py").drop 2)) :=
  (preserve_structure_target_resolution ["/", "out"] "/a/b/src/x.py").1
    ⟨3, by decide⟩ (by decide) (by decide) (by decide)

/-! ## Claim C4: idempotence of scan-and-resolve -/

/-- When the timestamp value parses, `parse_timestamp` never reads the clock. -/
theorem parse_timestamp_now_irrel (parseIso : String → Option Nat)
    (now₁ now₂ : Nat) (tj : Json) (h : timestampParses parseIso tj = true) :
    parse_timestamp parseIso now₁ tj = parse_timestamp parseIso now₂ tj := by
  cases tj with
  | str s =>
      simp only [timestampParses] at h
      simp only [parse_timestamp]
      cases hp : parseIso (replaceZ s) with
      | some t => rfl
      | none => rw [hp] at h; simp at h
  | null => simp [timestampParses] at h
  | bool b => simp [timestampParses] at h
  | num n => simp [timestampParses] at h
  | arr xs => simp [timestampParses] at h
  | obj fs => simp [timestampParses] at h

/-- When the line's timestamp parses, scanning it is clock-independent. -/
theorem scan_line_now_irrel (parseIso : String → Option Nat) (now₁ now₂ : Nat)
    (cid pname : String) (j : Json) (h : lineTimestampOk parseIso j = true) :
    scan_line parseIso now₁ cid pname j = scan_line parseIso now₂ cid pname j := by
  cases j with
  | obj fields =>
      have hts := parse_timestamp_now_irrel parseIso now₁ now₂
        ((fieldLookup fields "timestamp").getD (.str ""))
        (by simpa [lineTimestampOk] using h)
      simp only [scan_line, scan_assistant_branch, scan_user_branch, hts]
  | null => rfl
  | bool b => rfl
  | num n => rfl
  | str s => rfl
  | arr xs => rfl

/-- When every line's timestamp parses, scanning a conversation is
clock-independent. -/
theorem scan_conversation_now_irrel (parseIso : String → Option Nat)
    (now₁ now₂ : Nat) (cid pname : String) (lines : List (Option Json))
    (h : ∀ line ∈ lines, optLineTimestampOk parseIso line = true) :
    scan_conversation parseIso now₁ cid pname lines =
      scan_conversation parseIso now₂ cid pname lines := by
  induction lines with
  | nil => rfl
  | cons line rest ih =>
      have h1 : optLineTimestampOk parseIso line = true :=
        h line (List.mem_cons_self _ _)
      have h2 := ih fun l hl => h l (List.mem_cons_of_mem _ hl)
      cases line with
      | none => simp only [scan_conversation, h2]
      | some j =>
          have hj := scan_line_now_irrel parseIso now₁ now₂ cid pname j
            (by simpa [optLineTimestampOk] using h1)
          simp only [scan_conversation, hj, h2]

/-- Clock-independence of the conversation-accumulation loop, with a
generalized accumulator. -/
theorem scan_all_aux (parseIso : String → Option Nat) (now₁ now₂ : Nat)
    (pname : String) :
    ∀ (convs : List (String × List (Option Json))) (acc : List FileRecord),
    (∀ conv ∈ convs, ∀ line ∈ conv.2, optLineTimestampOk parseIso line = true) →
    List.foldl (fun acc2 conv =>
      match scan_conversation parseIso now₁ conv.1 pname conv.2 with
      | .ok evs => acc2 ++ evs
      | .error _ => acc2) acc convs =
    List.foldl (fun acc2 conv =>
      match scan_conversation parseIso now₂ conv.1 pname conv.2 with
      | .ok evs => acc2 ++ evs
      | .error _ => acc2) acc convs := by
  intro convs
  induction convs with
  | nil => intro acc _; rfl
  | cons conv rest ih =>
      intro acc h
      have hc := scan_conversation_now_irrel parseIso now₁ now₂ conv.1 pname conv.2
        (h conv (List.mem_cons_self _ _))
      simp only [List.foldl, hc]
      exact ih _ fun c hcm => h c (List.mem_cons_of_mem _ hcm)

/-- C4 (counterexample): over an unchanged log set containing one event-bearing
line without a parseable timestamp, two runs of the Project Aggregator at
different clock instants yield different resolved sets (the fallback stamps the
record with the current wall-clock time). -/
theorem scan_idempotence_counterexample :
    scan_project_for_files parseNatTs 0 "p" c4Logs ≠
      scan_project_for_files parseNatTs 1 "p" c4Logs := by decide

/-- C4 (amended): provided every scanned line's timestamp string parses (the
`datetime.now()` fallback is never exercised), running scan-and-resolve twice
over the same unchanged log set yields identical resolved file sets — same
paths, contents and canonical timestamps — whatever the clock reads. -/
theorem scan_idempotence_amended (parseIso : String → Option Nat)
    (now₁ now₂ : Nat) (pname : String)
    (convs : List (String × List (Option Json)))
    (h : ∀ conv ∈ convs, ∀ line ∈ conv.2, optLineTimestampOk parseIso line = true) :
    scan_project_for_files parseIso now₁ pname convs =
      scan_project_for_files parseIso now₂ pname convs := by
  unfold scan_project_for_files
  unfold scan_all_conversations
  rw [scan_all_aux parseIso now₁ now₂ pname convs [] h]

/-- Witness for C4's amended claim at a concrete one-line log set with a
parseable timestamp. -/
theorem scan_idempotence_amended_witness :
    (∀ conv ∈ c4GoodLogs, ∀ line ∈ conv.2, optLineTimestampOk parseNatTs line = true) ∧
    scan_project_for_files parseNatTs 0 "p" c4GoodLogs =
      scan_project_for_files parseNatTs 1 "p" c4GoodLogs :=
  ⟨by decide, scan_idempotence_amended parseNatTs 0 1 "p" c4GoodLogs (by decide)⟩

/-! ## Recovery-engine lemmas -/

/-- Setting a key makes it present with the new value. -/
theorem lookupFileAssoc_set_self : ∀ (m : List (List String × String))
    (k : List String) (v : String),
    lookupFileAssoc (setFileAssoc m k v) k = some v := by
  intro m k v
  induction m with
  | nil => simp [setFileAssoc, lookupFileAssoc]
  | cons kv rest ih =>
      obtain ⟨k0, v0⟩ := kv
      by_cases h : k0 = k
      · simp [setFileAssoc, lookupFileAssoc, h]
      · simp [setFileAssoc, lookupFileAssoc, h, ih]

/-- Setting a key leaves other keys unchanged. -/
theorem lookupFileAssoc_set_other : ∀ (m : List (List String × String))
    (k k2 : List String) (v : String), k2 ≠ k →
    lookupFileAssoc (setFileAssoc m k v) k2 = lookupFileAssoc m k2 := by
  intro m k k2 v hne
  have hkk2 : ¬k = k2 := fun hh => hne hh.symm
  induction m with
  | nil =>
      simp only [setFileAssoc, lookupFileAssoc]
      rw [if_neg hkk2]
  | cons kv rest ih =>
      obtain ⟨k0, v0⟩ := kv
      by_cases h : k0 = k
      · subst h
        simp only [setFileAssoc, if_pos rfl, lookupFileAssoc]
        rw [if_neg hkk2, if_neg hkk2]
      · simp only [setFileAssoc, if_neg h]
        by_cases h2 : k0 = k2
        · simp [lookupFileAssoc, h2]
        · simp [lookupFileAssoc, h2, ih]

/-- Writing a file makes its content readable. -/
theorem FS.lookupFile_writeFile_self (fs : FS) (p : List String) (c : String) :
    (fs.writeFile p c).lookupFile p = some c :=
  lookupFileAssoc_set_self fs.files p c

/-- Writing a file leaves other paths unchanged. -/
theorem FS.lookupFile_writeFile_other (fs : FS) (p q : List String) (c : String)
    (h : q ≠ p) : (fs.writeFile p c).lookupFile q = fs.lookupFile q :=
  lookupFileAssoc_set_other fs.files p q c h

/-- Creating directories does not change file contents. -/
theorem FS.lookupFile_mkdirParents (fs : FS) (t p : List String) :
    (fs.mkdirParents t).lookupFile p = fs.lookupFile p := rfl

/-- The backup path of a named path differs from the path itself. -/
theorem backupPath_ne : ∀ l : List String, l ≠ [] → backupPath l ≠ l := by
  intro l
  induction l with
  | nil => intro h; exact absurd rfl h
  | cons s rest ih =>
      intro _
      cases rest with
      | nil =>
          intro h
          have hs : s ++ ".backup" = s := by simpa [backupPath] using h
          have hlen := congrArg String.length hs
          rw [String.length_append] at hlen
          have h7 : (".backup" : String).length = 7 := rfl
          omega
      | cons t rest2 =>
          intro h
          simp only [backupPath] at h
          injection h with _ htail
          exact ih (by simp) htail

/-! ## Claim C6: backup-before-overwrite semantics -/

/-- C6: recovering a single file with backups enabled onto an existing target,
with `force = false` and the confirmation accepted and no I/O failure, leaves
a backup file at `target + ".backup"` holding the original pre-recovery
content (the copy happens before the overwrite), writes the incoming event's
content at the target, and reports `backupCreated = true` in a successful
outcome. -/
theorem recover_file_backup_semantics (r : FileRecord) (target : List String)
    (fs : FS) (failPaths : List (List String)) (orig : String)
    (hne : target ≠ [])
    (hex : fs.lookupFile target = some orig)
    (hb : backupPath target ∉ failPaths)
    (ht : target ∉ failPaths) :
    ((recover_file true true failPaths r (some target) false fs).2.lookupFile
        (backupPath target) = some orig) ∧
    ((recover_file true true failPaths r (some target) false fs).2.lookupFile
        target = some r.content) ∧
    (recover_file true true failPaths r (some target) false fs).1.backup_created = true ∧
    (recover_file true true failPaths r (some target) false fs).1.success = true ∧
    (recover_file true true failPaths r (some target) false fs).1.was_existing = true := by
  have hwe : fs.fileExists target = true := by simp [FS.fileExists, hex]
  have hstep : recover_file true true failPaths r (some target) false fs =
      ({ file_record := r, success := true, target_path := target,
         error_message := none, was_existing := fs.fileExists target,
         backup_created := true },
       ((fs.mkdirParents target).writeFile (backupPath target)
           (((fs.mkdirParents target).lookupFile target).getD "")).writeFile
         target r.content) := by
    simp [recover_file, hwe, hb, ht]
  rw [hstep]
  have horig : (fs.mkdirParents target).lookupFile target = some orig := hex
  refine ⟨?_, ?_, rfl, rfl, by rw [hwe]⟩
  · rw [FS.lookupFile_writeFile_other _ _ _ _ (backupPath_ne target hne)]
    rw [FS.lookupFile_writeFile_self]
    rw [horig]
    rfl
  · rw [FS.lookupFile_writeFile_self]

/-- Witness for C6 at the concrete existing file `/t/f.txt` of `wFS`. -/
theorem recover_file_backup_semantics_witness :
    ((recover_file true true [] wRecTgt (some ["/", "t", "f.txt"]) false wFS).2.lookupFile
        (backupPath ["/", "t", "f.txt"]) = some "old") ∧
    ((recover_file true true [] wRecTgt (some ["/", "t", "f.txt"]) false wFS).2.lookupFile
        ["/", "t", "f.txt"] = some wRecTgt.content) ∧
    (recover_file true true [] wRecTgt (some ["/", "t", "f.txt"]) false wFS).1.backup_created = true ∧
    (recover_file true true [] wRecTgt (some ["/", "t", "f.txt"]) false wFS).1.success = true ∧
    (recover_file true true [] wRecTgt (some ["/", "t", "f.txt"]) false wFS).1.was_existing = true :=
  recover_file_backup_semantics wRecTgt ["/", "t", "f.txt"] wFS [] "old"
    (by decide) (by decide) (by decide) (by decide)

/-! ## Claim C7: declined overwrite performs no mutation -/

/-- C7: when a file exists at the target, `force` is false and the
confirmation collaborator declines, the outcome is a non-success with
`wasExisting = true`, the fixed non-empty reason string and
`backupCreated = false`, and the filesystem (files and directories alike) is
returned unchanged. -/
theorem recover_file_decline_no_mutation (cb : Bool) (failPaths : List (List String))
    (r : FileRecord) (target : List String) (fs : FS)
    (hex : fs.fileExists target = true) :
    (recover_file cb false failPaths r (some target) false fs).1.success = false ∧
    (recover_file cb false failPaths r (some target) false fs).1.was_existing = true ∧
    (recover_file cb false failPaths r (some target) false fs).1.error_message =
      some "User cancelled overwrite" ∧
    (recover_file cb false failPaths r (some target) false fs).1.backup_created = false ∧
    (recover_file cb false failPaths r (some target) false fs).2 = fs := by
  have hstep : recover_file cb false failPaths r (some target) false fs =
      ({ file_record := r, success := false, target_path := target,
         error_message := some "User cancelled overwrite",
         was_existing := true, backup_created := false }, fs) := by
    simp [recover_file, hex]
  rw [hstep]
  exact ⟨rfl, rfl, rfl, rfl, rfl⟩

/-- Witness for C7 at the concrete existing file `/t/f.txt` of `wFS`. -/
theorem recover_file_decline_no_mutation_witness :
    (recover_file true false [] wRecTgt (some ["/", "t", "f.txt"]) false wFS).1.success = false ∧
    (recover_file true false [] wRecTgt (some ["/", "t", "f.txt"]) false wFS).1.was_existing = true ∧
    (recover_file true false [] wRecTgt (some ["/", "t", "f.txt"]) false wFS).1.error_message =
      some "User cancelled overwrite" ∧
    (recover_file true false [] wRecTgt (some ["/", "t", "f.txt"]) false wFS).1.backup_created = false ∧
    (recover_file true false [] wRecTgt (some ["/", "t", "f.txt"]) false wFS).2 = wFS :=
  recover_file_decline_no_mutation true [] wRecTgt ["/", "t", "f.txt"] wFS (by decide)

/-! ## Claim C8: batch recovery contract -/

/-- Every branch of `recover_file` reports the record it was given. -/
theorem recover_file_keeps_record (cb conf : Bool) (failPaths : List (List String))
    (r : FileRecord) (t? : Option (List String)) (force : Bool) (fs : FS) :
    (recover_file cb conf failPaths r t? force fs).1.file_record = r := by
  simp only [recover_file]
  repeat' split
  all_goals rfl

/-- C8: batch recovery returns exactly one outcome per input event, in input
order (their `file_record` fields list the inputs verbatim); the batch over a
concatenation is the concatenation of the batches (no abort: later events are
processed whatever happened earlier); and an event whose target write fails
yields a non-success outcome. -/
theorem recover_files_batch_contract :
    (∀ (cb conf : Bool) (failPaths : List (List String)) (records : List FileRecord)
       (td : Option (List String)) (ps force : Bool) (fs : FS),
       ((recover_files cb conf failPaths records td ps force fs).1.map
         fun res => res.file_record) = records) ∧
    (∀ (cb conf : Bool) (failPaths : List (List String)) (xs ys : List FileRecord)
       (td : Option (List String)) (ps force : Bool) (fs : FS),
       recover_files cb conf failPaths (xs ++ ys) td ps force fs =
         ((recover_files cb conf failPaths xs td ps force fs).1 ++
            (recover_files cb conf failPaths ys td ps force
              (recover_files cb conf failPaths xs td ps force fs).2).1,
          (recover_files cb conf failPaths ys td ps force
            (recover_files cb conf failPaths xs td ps force fs).2).2)) ∧
    (∀ (cb conf : Bool) (failPaths : List (List String)) (r : FileRecord)
       (target : List String) (force : Bool) (fs : FS),
       target ∈ failPaths →
       (recover_file cb conf failPaths r (some target) force fs).1.success = false) := by
  refine ⟨?_, ?_, ?_⟩
  · intro cb conf failPaths records td ps force fs
    induction records generalizing fs with
    | nil => rfl
    | cons r rest ih =>
        simp only [recover_files, List.map]
        rw [recover_file_keeps_record, ih]
  · intro cb conf failPaths xs ys td ps force fs
    induction xs generalizing fs with
    | nil => rfl
    | cons x xs2 ih =>
        simp only [List.cons_append, recover_files, List.append_eq]
        rw [ih]
  · intro cb conf failPaths r target force fs hmem
    simp only [recover_file]
    repeat' split
    all_goals simp_all

/-- Witness for C8: an injected write failure at the target of a single-event
batch yields a non-success outcome. -/
theorem recover_files_batch_contract_witness :
    (["/", "t", "f.txt"] ∈ [(["/", "t", "f.txt"] : List String)]) ∧
    (recover_file true true [["/", "t", "f.txt"]] wRecTgt
      (some ["/", "t", "f.txt"]) true wFS).1.success = false :=
  ⟨by decide, recover_files_batch_contract.2.2 true true [["/", "t", "f.txt"]]
     wRecTgt ["/", "t", "f.txt"] true wFS (by decide)⟩

/-! ## Claim C9: preview performs no filesystem mutation -/

/-- C9: preview mode computes its report from the filesystem by existence
reads only and returns the filesystem exactly as it received it — it never
creates, modifies or deletes any entry. -/
theorem preview_recovery_no_mutation (records : List FileRecord)
    (target_dir : Option (List String)) (preserve_structure : Bool) (fs : FS) :
    (preview_recovery records target_dir preserve_structure fs).2 = fs := rfl
